import Mathlib

/-!
Verification of the Pipeline-to-Workflow compiler of the `gha` module
(`main.go`): data model, environment construction for the execute step,
secret-name validation, checkout/sparse-checkout construction, workflow
assembly, the aggregator's Check fan-out and Config filename generation.

Conventions of the embedding:
* Go strings are Lean `String`s (rune sequences).
* Go `map[string]string` values are modelled as the ordered list of writes
  performed on them; the final map is recovered by `envGet`, which returns
  the value of the last write to a key (Go assignment overwrites).
* Go `[]string` that is semantically nil-or-present (`SparseCheckout`) is
  `Option (List String)`; plain slices are `List String`.
* `Pipeline.Check`'s container execution is external I/O; its per-pipeline
  outcome is abstracted as a function `Pipeline → Except ε Unit` when the
  aggregator's fan-out (`Gha.Check`) is analysed.
* `fmt.Sprintf` with `%d` is embedded by the decimal formatter `natDec`;
  `strings.ToUpper` by the rune-wise `strUpper`.
-/

namespace GhaSpec

/-- Embeds the `Settings` struct of `main.go`. -/
structure Settings where
  PublicToken : String
  DaggerVersion : String
  NoTraces : Bool
  StopEngine : Bool
  AsJson : Bool
  Runner : String
deriving DecidableEq

/-- Embeds the `Pipeline` struct of `main.go`.  `SparseCheckout` is `none`
when the Go slice is nil and `some paths` otherwise (a non-nil empty slice
is `some []`). -/
structure Pipeline where
  Module : String
  Command : String
  Secrets : List String
  SparseCheckout : Option (List String)
  Settings : Settings
deriving DecidableEq

/-- Embeds the `githubContextKeys` table of `main.go` (the keys available
as dynamic context references), in source order. -/
def githubContextKeys : List String :=
  ["action", "action_path", "action_ref", "action_repository", "action_status",
   "actor", "actor_id", "api_url", "base_ref", "env", "event_name", "event_path",
   "graphql_url", "head_ref", "job", "path", "ref", "ref_name", "ref_protected",
   "ref_type", "repository", "repository_id", "repository_owner",
   "repository_owner_id", "repositoryUrl", "retention_days", "run_id",
   "run_number", "run_attempt", "secret_source", "server_url", "sha", "token",
   "triggering_actor", "workflow", "workflow_ref", "workflow_sha", "workspace"]

/-- Embeds `strings.ToUpper` (rune-wise upper-casing; all inputs in this
development are ASCII). -/
def strUpper (s : String) : String := ⟨s.data.map Char.toUpper⟩

/-- Character class of the secret-name grammar `[a-zA-Z0-9_]` used by
`checkSecretNames` in `main.go`. -/
def validSecretChar (c : Char) : Bool :=
  (decide ('a' ≤ c) && decide (c ≤ 'z')) ||
  (decide ('A' ≤ c) && decide (c ≤ 'Z')) ||
  (decide ('0' ≤ c) && decide (c ≤ '9')) ||
  c == '_'

/-- Full-string match of the Go regexp `^[a-zA-Z0-9_]+$`: non-empty and
every rune in the class. -/
def validSecretName (s : String) : Bool :=
  !(s.data.isEmpty) && s.data.all validSecretChar

/-- The error message produced by `checkSecretNames` for an invalid name. -/
def secretNameError (s : String) : String :=
  "invalid secret name: \x27" ++ s ++ "\x27 must contain only alphanumeric characters and underscores"

/-- Embeds `Pipeline.checkSecretNames` of `main.go`: scans the secret list
in order and fails on the first name not matching the grammar. -/
def checkSecretNames : List String → Except String Unit
  | [] => .ok ()
  | s :: rest =>
    if validSecretName s then checkSecretNames rest else .error (secretNameError s)

/-- Embeds the command-string construction of `Pipeline.checkCommandAndModule`
in `main.go`: start from the tool invocation, append the quoted module flag
when the module is non-empty, then append the command and the help flag. -/
def checkScript (p : Pipeline) : String :=
  let script := "dagger call"
  let script := if p.Module ≠ "" then script ++ " -m \x27" ++ p.Module ++ "\x27 " else script
  script ++ p.Command ++ " --help"

/-- Strict left-biased choice on `Option`, used to give Go-map lookup
semantics to a list of writes. -/
def oor {α : Type} : Option α → Option α → Option α
  | some v, _ => some v
  | none, b => b

/-- Lookup in a list of map writes: the value of the last write to `k`
(later writes overwrite earlier ones, as Go map assignment does). -/
def envGet : List (String × String) → String → Option String
  | [], _ => none
  | e :: rest, k => oor (envGet rest k) (if e.1 == k then some e.2 else none)

/-- The dynamic secret reference written for the cloud token when no public
token is configured (`main.go`, `callDaggerStep`). -/
def cloudTokenRef : String := "$\x7b\x7b secrets.DAGGER_CLOUD_TOKEN \x7d\x7d"

/-- Write group 1 of `callDaggerStep`: the `COMMAND` entry. -/
def envGroupCommand (p : Pipeline) : List (String × String) :=
  [("COMMAND", "dagger call -q " ++ p.Command)]

/-- Write group 2 of `callDaggerStep`: one entry per declared secret,
mapped to its dynamic secret reference expression. -/
def envGroupSecrets (p : Pipeline) : List (String × String) :=
  p.Secrets.map (fun s => (s, "$\x7b\x7b secrets." ++ s ++ " \x7d\x7d"))

/-- Write group 3 of `callDaggerStep`: the `DAGGER_MODULE` entry, present
iff the module is non-empty. -/
def envGroupModule (p : Pipeline) : List (String × String) :=
  if p.Module ≠ "" then [("DAGGER_MODULE", p.Module)] else []

/-- Write group 4 of `callDaggerStep`: the cloud-token entries (current and
legacy name), absent when traces are disabled. -/
def envGroupCloud (p : Pipeline) : List (String × String) :=
  if p.Settings.NoTraces then []
  else if p.Settings.PublicToken ≠ "" then
    [("DAGGER_CLOUD_TOKEN", p.Settings.PublicToken),
     ("_EXPERIMENTAL_DAGGER_CLOUD_TOKEN", p.Settings.PublicToken)]
  else
    [("DAGGER_CLOUD_TOKEN", cloudTokenRef),
     ("_EXPERIMENTAL_DAGGER_CLOUD_TOKEN", cloudTokenRef)]

/-- Write group 5 of `callDaggerStep`: one `GITHUB_<KEY>` entry per context
key, mapped to its dynamic reference expression. -/
def envGroupGithub : List (String × String) :=
  githubContextKeys.map (fun k => ("GITHUB_" ++ strUpper k, "$\x7b\x7b github." ++ k ++ " \x7d\x7d"))

/-- The ordered sequence of environment writes performed by
`Pipeline.callDaggerStep` in `main.go`. -/
def callDaggerEnv (p : Pipeline) : List (String × String) :=
  envGroupCommand p ++ envGroupSecrets p ++ envGroupModule p ++ envGroupCloud p ++ envGroupGithub

/-- Key list of a write group. -/
def keysOf (l : List (String × String)) : List String := l.map Prod.fst

/-- Boolean disjointness of two key lists. -/
def disjointKeys (xs ys : List String) : Bool := xs.all (fun k => !(ys.elem k))

/-- All ten pairwise disjointness checks between the five write groups of
`callDaggerStep`. -/
def envGroupsPairwiseDisjoint (p : Pipeline) : Bool :=
  let k1 := keysOf (envGroupCommand p)
  let k2 := keysOf (envGroupSecrets p)
  let k3 := keysOf (envGroupModule p)
  let k4 := keysOf (envGroupCloud p)
  let k5 := keysOf envGroupGithub
  disjointKeys k1 k2 && disjointKeys k1 k3 && disjointKeys k1 k4 && disjointKeys k1 k5 &&
  disjointKeys k2 k3 && disjointKeys k2 k4 && disjointKeys k2 k5 &&
  disjointKeys k3 k4 && disjointKeys k3 k5 && disjointKeys k4 k5

/-- Modelled from the spec: the trigger condition type (`WorkflowTriggers`)
is defined outside the given source; the core only ever uses its blank
value (the `on:` section is intentionally left empty by `asWorkflow`). -/
structure WorkflowTriggers where
deriving DecidableEq

/-- Embeds the `JobStep` shape used by `main.go` (reusable-action fields
and inline-script fields; unset Go zero values are `none`).  `With` and
`Env` mappings are kept as ordered write lists. -/
structure JobStep where
  Name : String
  ID : Option String := none
  Uses : Option String := none
  With : Option (List (String × String)) := none
  Shell : Option String := none
  Run : Option String := none
  Env : Option (List (String × String)) := none
deriving DecidableEq

/-- Embeds the `Job` shape used by `main.go`. -/
structure Job where
  RunsOn : String
  Steps : List JobStep
  Outputs : List (String × String)
deriving DecidableEq

/-- Embeds the `Workflow` shape used by `main.go`; the single-entry job map
is a keyed list. -/
structure Workflow where
  Name : String
  On : WorkflowTriggers
  Jobs : List (String × Job)
deriving DecidableEq

/-- Embeds `Pipeline.bashStep` of `main.go`; `scripts` maps an embedded
script path to its contents (reading the bundled script file). -/
def bashStep (scripts : String → String) (id : String) (env : Option (List (String × String))) : JobStep :=
  { Name := "scripts/" ++ id ++ ".sh",
    ID := some id,
    Shell := some ("bash"),
    Run := some (scripts ("scripts/" ++ id ++ ".sh")),
    Env := env }

/-- The four fixed tool-discovery paths appended by `checkoutStep`. -/
def discoveryPaths : List String := ["dagger.json", ".dagger", "dagger", "ci"]

/-- Embeds `Pipeline.checkoutStep` of `main.go`. -/
def checkoutStep (p : Pipeline) : JobStep :=
  let step : JobStep := { Name := "Checkout", Uses := some ("actions/checkout@v4") }
  match p.SparseCheckout with
  | none => step
  | some paths =>
    { step with With := some [("sparse-checkout", String.intercalate "\n" (paths ++ discoveryPaths))] }

/-- Embeds `Pipeline.warmEngineStep` of `main.go`. -/
def warmEngineStep (scripts : String → String) (_p : Pipeline) : JobStep :=
  bashStep scripts ("warm-engine") none

/-- Embeds `Pipeline.installDaggerStep` of `main.go`. -/
def installDaggerStep (scripts : String → String) (p : Pipeline) : JobStep :=
  bashStep scripts ("install-dagger") (some [("DAGGER_VERSION", p.Settings.DaggerVersion)])

/-- Embeds `Pipeline.callDaggerStep` of `main.go`. -/
def callDaggerStep (scripts : String → String) (p : Pipeline) : JobStep :=
  bashStep scripts ("exec") (some (callDaggerEnv p))

/-- Embeds `Pipeline.stopEngineStep` of `main.go`. -/
def stopEngineStep (scripts : String → String) (_p : Pipeline) : JobStep :=
  bashStep scripts ("scripts/stop-engine.sh") none

/-- Embeds `Pipeline.asWorkflow` of `main.go`: fixed step order, a single
job named `dagger` on the configured runner, two captured outputs, blank
triggers. -/
def asWorkflow (scripts : String → String) (p : Pipeline) : Workflow :=
  let steps := [checkoutStep p, installDaggerStep scripts p, warmEngineStep scripts p,
                callDaggerStep scripts p]
  let steps := if p.Settings.StopEngine then steps ++ [stopEngineStep scripts p] else steps
  { Name := p.Command,
    On := WorkflowTriggers.mk,
    Jobs := [("dagger",
      { RunsOn := p.Settings.Runner,
        Steps := steps,
        Outputs := [("stdout", "$\x7b\x7b steps.exec.outputs.stdout \x7d\x7d"),
                    ("stderr", "$\x7b\x7b steps.exec.outputs.stderr \x7d\x7d")] })] }

/-- Modelled from the spec: a push trigger wraps a Pipeline; its condition
fields are opaque to the core (spec excludes concrete trigger types) and
irrelevant to `Check`/`Config` fan-out, so only the Pipeline is kept. -/
structure PushTrigger where
  Pipeline : Pipeline
deriving DecidableEq

/-- Modelled from the spec: a pull-request trigger wraps a Pipeline
(condition fields opaque, omitted). -/
structure PullRequestTrigger where
  Pipeline : Pipeline
deriving DecidableEq

/-- Modelled from the spec: a dispatch trigger wraps a Pipeline
(condition fields opaque, omitted). -/
structure DispatchTrigger where
  Pipeline : Pipeline
deriving DecidableEq

/-- Modelled from the spec: an issue-comment trigger wraps a Pipeline
(condition fields opaque, omitted). -/
structure IssueCommentTrigger where
  Pipeline : Pipeline
deriving DecidableEq

/-- Embeds the `Gha` aggregator struct of `main.go`. -/
structure Gha where
  PushTriggers : List PushTrigger
  PullRequestTriggers : List PullRequestTrigger
  DispatchTriggers : List DispatchTrigger
  IssueCommentTriggers : List IssueCommentTrigger
  Settings : Settings
deriving DecidableEq

/-- Embeds `Gha.pipeline` of `main.go`: copy the aggregator settings into
the new Pipeline, overriding the runner only when the override string is
non-empty. -/
def pipeline (m : Gha) (command module runner : String) (secrets : List String)
    (sparseCheckout : Option (List String)) : Pipeline :=
  let p : Pipeline :=
    { Command := command, Module := module, Secrets := secrets,
      SparseCheckout := sparseCheckout, Settings := m.Settings }
  if runner ≠ "" then { p with Settings := { p.Settings with Runner := runner } } else p

/-- One early-returning loop of `Gha.Check`: run the abstracted
`Pipeline.Check` outcome on each pipeline, stopping at the first error. -/
def checkList {ε : Type} (check : Pipeline → Except ε Unit) : List Pipeline → Except ε Unit
  | [] => .ok ()
  | p :: rest =>
    match check p with
    | .error e => .error e
    | .ok _ => checkList check rest

/-- Embeds `Gha.Check` of `main.go`: four sequential loops (push, then
pull-request, then dispatch, then issue-comment), each early-returning the
first `Pipeline.Check` error; `check` abstracts the per-pipeline outcome of
the container-based validation. -/
def ghaCheck {ε : Type} (check : Pipeline → Except ε Unit) (g : Gha) : Except ε Gha :=
  match checkList check (g.PushTriggers.map (fun t => t.Pipeline)) with
  | .error e => .error e
  | .ok _ =>
    match checkList check (g.PullRequestTriggers.map (fun t => t.Pipeline)) with
    | .error e => .error e
    | .ok _ =>
      match checkList check (g.DispatchTriggers.map (fun t => t.Pipeline)) with
      | .error e => .error e
      | .ok _ =>
        match checkList check (g.IssueCommentTriggers.map (fun t => t.Pipeline)) with
        | .error e => .error e
        | .ok _ => .ok g

/-- The pipelines of an aggregator in the iteration order of `Gha.Check`. -/
def orderedPipelines (g : Gha) : List Pipeline :=
  g.PushTriggers.map (fun t => t.Pipeline) ++
  g.PullRequestTriggers.map (fun t => t.Pipeline) ++
  g.DispatchTriggers.map (fun t => t.Pipeline) ++
  g.IssueCommentTriggers.map (fun t => t.Pipeline)

/-- Digit character of a decimal digit (`0`–`9` for inputs below ten). -/
def digitChar (d : Nat) : Char := Char.ofNat (48 + d)

/-- Fuel-indexed decimal digit expansion (most significant digit first);
the fuel bounds the recursion depth and is irrelevant once it exceeds the
argument. -/
def decRepr : Nat → Nat → List Char
  | 0, _ => []
  | fuel+1, n => if n < 10 then [digitChar n] else decRepr fuel (n / 10) ++ [digitChar (n % 10)]

/-- Embeds the `%d` formatting of `fmt.Sprintf`: standard decimal notation
of a natural number. -/
def natDec (n : Nat) : String := ⟨decRepr (n+1) n⟩

/-- Numeric value of a digit list, used to invert `decRepr`. -/
def decValueList (l : List Char) : Nat :=
  l.foldl (fun a c => a * 10 + (c.toNat - 48)) 0

/-- Modelled from the spec: the trigger-side `Config` (not part of the
given source) renders the workflow into a single file under the filename
handed to it by `Gha.Config`, switching the `.yml` extension to `.json`
when JSON mode is enabled (spec: filename `<prefix><kind>-<index>.<ext>`,
`.json` if JSON mode). -/
def triggerFileName (filename : String) (asJson : Bool) : String :=
  if asJson then ⟨filename.data.take (filename.data.length - 4) ++ ['.', 'j', 's', 'o', 'n']⟩
  else filename

/-- Extension selected by the output-format setting. -/
def ghaExt (g : Gha) : String := if g.Settings.AsJson then ".json" else ".yml"

/-- Embeds the filename generation of `Gha.Config` in `main.go`: for each
kind in order (push, pull-request, dispatch, issue-comment) and each
trigger index `i`, the name `<prefix><kind>-<i+1>.yml` is built and handed
to the trigger's `Config` together with the JSON-mode flag. -/
def ghaConfigFilenames (g : Gha) (pfx : String) : List String :=
  ((List.range g.PushTriggers.length).map
    (fun i => triggerFileName (pfx ++ "push-" ++ natDec (i+1) ++ ".yml") g.Settings.AsJson)) ++
  ((List.range g.PullRequestTriggers.length).map
    (fun i => triggerFileName (pfx ++ "pr-" ++ natDec (i+1) ++ ".yml") g.Settings.AsJson)) ++
  ((List.range g.DispatchTriggers.length).map
    (fun i => triggerFileName (pfx ++ "dispatch-" ++ natDec (i+1) ++ ".yml") g.Settings.AsJson)) ++
  ((List.range g.IssueCommentTriggers.length).map
    (fun i => triggerFileName (pfx ++ "issue-comment-" ++ natDec (i+1) ++ ".yml") g.Settings.AsJson))

/-- Baseline settings used by the concrete test fixtures. -/
def settingsBase : Settings :=
  { PublicToken := "", DaggerVersion := "latest", NoTraces := false,
    StopEngine := false, AsJson := false, Runner := "ubuntu-latest" }

/-- Fixture: a module-less pipeline, the default situation for
`checkCommandAndModule`. -/
def pipeC1 : Pipeline :=
  { Module := "", Command := "build", Secrets := [], SparseCheckout := none,
    Settings := settingsBase }

/-- Fixture: a pipeline whose declared secret collides with the `COMMAND`
environment entry. -/
def pipeC3 : Pipeline :=
  { Module := "", Command := "build", Secrets := ["COMMAND"], SparseCheckout := none,
    Settings := settingsBase }

/-- Fixture: a pipeline with benign secret names. -/
def pipeC3ok : Pipeline :=
  { Module := "ci", Command := "build", Secrets := ["FOO", "MY_TOKEN"],
    SparseCheckout := none, Settings := settingsBase }

/-- Fixture: traces disabled, a public token configured anyway, and the
cloud-token name also declared as a secret. -/
def pipeC4 : Pipeline :=
  { Module := "", Command := "build", Secrets := ["DAGGER_CLOUD_TOKEN"],
    SparseCheckout := none,
    Settings := { settingsBase with NoTraces := true, PublicToken := "tok" } }

/-- Fixture: a sparse checkout restricted to one user path. -/
def pipeC6 : Pipeline :=
  { Module := "", Command := "build", Secrets := [], SparseCheckout := some ["src"],
    Settings := settingsBase }

/-- Fixture: a pipeline whose command names it for the C8 scenario. -/
def pipeOkC8 : Pipeline :=
  { Module := "", Command := "lint", Secrets := [], SparseCheckout := none,
    Settings := settingsBase }

/-- Fixture: the failing pipeline of the C8 scenario. -/
def pipeBadC8 : Pipeline :=
  { Module := "", Command := "boom", Secrets := [], SparseCheckout := none,
    Settings := settingsBase }

/-- Fixture: an aggregator with one push trigger and one pull-request
trigger. -/
def ghaC8 : Gha :=
  { PushTriggers := [⟨pipeOkC8⟩], PullRequestTriggers := [⟨pipeBadC8⟩],
    DispatchTriggers := [], IssueCommentTriggers := [], Settings := settingsBase }

/-- Fixture: the abstracted per-pipeline check outcome for the C8 scenario,
failing exactly on the `boom` command. -/
def checkC8 : Pipeline → Except String Unit :=
  fun p => if p.Command = "boom" then .error ("pipeline invalid") else .ok ()

/-- The digit characters of digits below ten decode back to their value. -/
theorem digitChar_toNat : ∀ d : Fin 10, (digitChar d.val).toNat = 48 + d.val := by decide

/-- Folding the decimal decoder over `decRepr fuel n` recovers `n` below
the accumulated power of ten, whenever the fuel exceeds the argument. -/
theorem decRepr_foldl : ∀ fuel n acc : Nat, n < fuel →
    (decRepr fuel n).foldl (fun a c => a * 10 + (c.toNat - 48)) acc =
      acc * 10 ^ (decRepr fuel n).length + n := by
  intro fuel
  induction fuel with
  | zero => intro n acc h; omega
  | succ fuel ih =>
    intro n acc h
    by_cases h10 : n < 10
    · have hdg : (digitChar n).toNat = 48 + n := digitChar_toNat ⟨n, h10⟩
      simp [decRepr, h10, hdg]
    · have hdiv : n / 10 < fuel := by
        have h1 : n / 10 < n := Nat.div_lt_self (by omega) (by omega)
        omega
      have hmod : (digitChar (n % 10)).toNat = 48 + n % 10 :=
        digitChar_toNat ⟨n % 10, Nat.mod_lt n (by omega)⟩
      have hrec := ih (n / 10) acc hdiv
      have hdm : 10 * (n / 10) + n % 10 = n := Nat.div_add_mod n 10
      simp only [decRepr, h10, if_false, List.foldl_append, List.length_append,
        List.foldl_cons, List.foldl_nil, List.length_cons, List.length_nil, hrec, hmod]
      have hpow : (10 : Nat) ^ ((decRepr fuel (n / 10)).length + (0 + 1)) =
          10 ^ (decRepr fuel (n / 10)).length * 10 := by
        simp [pow_succ]
      rw [hpow]
      have : 48 + n % 10 - 48 = n % 10 := by omega
      rw [this]
      calc (acc * 10 ^ (decRepr fuel (n / 10)).length + n / 10) * 10 + n % 10
          = acc * (10 ^ (decRepr fuel (n / 10)).length * 10) + (10 * (n / 10) + n % 10) := by
            ring
        _ = acc * (10 ^ (decRepr fuel (n / 10)).length * 10) + n := by rw [hdm]

/-- Decimal notation is injective: `natDec` has a left inverse given by the
decimal decoder. -/
theorem natDec_inj (m n : Nat) (h : natDec m = natDec n) : m = n := by
  have hd : decRepr (m+1) m = decRepr (n+1) n := congrArg String.data h
  have h1 := decRepr_foldl (m+1) m 0 (by omega)
  have h2 := decRepr_foldl (n+1) n 0 (by omega)
  rw [hd] at h1
  rw [h1] at h2
  omega

/-- String concatenation concatenates the underlying rune lists. -/
theorem strData_append (x y : String) : (x ++ y).data = x.data ++ y.data := rfl

/-- Two rune lists with distinct heads stay distinct under any right
extension. -/
theorem heads_distinct {c1 c2 : Char} (hne : c1 ≠ c2) (t1 t2 r1 r2 : List Char)
    (h : (c1 :: t1) ++ r1 = (c2 :: t2) ++ r2) : False := by
  rw [List.cons_append, List.cons_append] at h
  injection h with h1 _
  exact hne h1

/-- Two rune lists sharing the first rune but differing at the second stay
distinct under any right extension. -/
theorem heads2_distinct {c c1 c2 : Char} (hne : c1 ≠ c2) (t1 t2 r1 r2 : List Char)
    (h : (c :: c1 :: t1) ++ r1 = (c :: c2 :: t2) ++ r2) : False := by
  rw [List.cons_append, List.cons_append, List.cons_append, List.cons_append] at h
  injection h with _ h2
  injection h2 with h3 _
  exact hne h3

/-- Filenames of one kind block are injective in the index. -/
theorem filename_inj (pfx kd ext : String) {i j : Nat}
    (h : pfx ++ kd ++ natDec (i+1) ++ ext = pfx ++ kd ++ natDec (j+1) ++ ext) : i = j := by
  have hd := congrArg String.data h
  simp only [strData_append, List.append_assoc] at hd
  have h1 := List.append_cancel_left hd
  have h2 := List.append_cancel_left h1
  have h3 := List.append_cancel_right h2
  have h4 : natDec (i+1) = natDec (j+1) := String.ext h3
  have := natDec_inj _ _ h4
  omega

/-- `oor` with an empty second choice. -/
theorem oor_none_right {α : Type} (a : Option α) : oor a none = a := by
  cases a <;> rfl

/-- Associativity of `oor`. -/
theorem oor_assoc {α : Type} (a b c : Option α) : oor (oor a b) c = oor a (oor b c) := by
  cases a <;> rfl

/-- Lookup across an append: the later block wins. -/
theorem envGet_append (l1 l2 : List (String × String)) (k : String) :
    envGet (l1 ++ l2) k = oor (envGet l2 k) (envGet l1 k) := by
  induction l1 with
  | nil => simp [envGet, oor_none_right]
  | cons e l1 ih =>
    simp only [List.cons_append, envGet, List.append_eq] at *
    rw [ih, oor_assoc]

/-- A key written by no entry is absent. -/
theorem envGet_eq_none_of (l : List (String × String)) (k : String)
    (h : ∀ e ∈ l, (e.1 == k) = false) : envGet l k = none := by
  induction l with
  | nil => rfl
  | cons e l ih =>
    have he := h e (List.mem_cons_self e l)
    have hl : envGet l k = none := ih (fun e' he' => h e' (List.mem_cons_of_mem e he'))
    simp [envGet, hl, he, oor]

/-- A key that is not a declared secret is absent from the secret write
group. -/
theorem envGet_secrets_none (ss : List String) (f : String → String) (k : String)
    (h : ¬ k ∈ ss) : envGet (ss.map (fun s => (s, f s))) k = none := by
  apply envGet_eq_none_of
  intro e he
  rcases List.mem_map.mp he with ⟨s, hs, rfl⟩
  exact beq_eq_false_iff_ne.mpr (fun hEq => h (hEq ▸ hs))

/-- `checkList` over an append short-circuits through the first block. -/
theorem checkList_append {ε : Type} (c : Pipeline → Except ε Unit) (l1 l2 : List Pipeline) :
    checkList c (l1 ++ l2) =
      match checkList c l1 with
      | .error e => .error e
      | .ok _ => checkList c l2 := by
  induction l1 with
  | nil => rfl
  | cons p l1 ih =>
    cases hc : c p <;> simp [checkList, hc, ih]

/-- `checkList` succeeds exactly when every element's check succeeds. -/
theorem checkList_ok_iff {ε : Type} (c : Pipeline → Except ε Unit) (l : List Pipeline) :
    checkList c l = .ok () ↔ ∀ p ∈ l, c p = .ok () := by
  induction l with
  | nil => simp [checkList]
  | cons p l ih =>
    cases hc : c p with
    | error e => simp [checkList, hc]
    | ok u => cases u; simp [checkList, hc, ih]

/-- `checkList` returns the first error in list order, unchanged. -/
theorem checkList_first_error {ε : Type} (c : Pipeline → Except ε Unit) :
    ∀ pre (p : Pipeline) post (e : ε), (∀ q ∈ pre, c q = .ok ()) → c p = .error e →
    checkList c (pre ++ p :: post) = .error e := by
  intro pre
  induction pre with
  | nil => intro p post e _ hp; simp [checkList, hp]
  | cons q pre ih =>
    intro p post e hpre hp
    have hq : c q = .ok () := hpre q (List.mem_cons_self q pre)
    simp only [List.cons_append, checkList, hq]
    exact ih p post e (fun r hr => hpre r (List.mem_cons_of_mem q hr)) hp

/-- `Gha.Check` is the short-circuit fold of the abstracted check over the
pipelines in fan-out order. -/
theorem ghaCheck_eq {ε : Type} (c : Pipeline → Except ε Unit) (g : Gha) :
    ghaCheck c g =
      match checkList c (orderedPipelines g) with
      | .error e => .error e
      | .ok _ => .ok g := by
  simp only [orderedPipelines, checkList_append, ghaCheck]
  cases checkList c (g.PushTriggers.map (fun t => t.Pipeline)) <;>
    cases checkList c (g.PullRequestTriggers.map (fun t => t.Pipeline)) <;>
    cases checkList c (g.DispatchTriggers.map (fun t => t.Pipeline)) <;>
    cases checkList c (g.IssueCommentTriggers.map (fun t => t.Pipeline)) <;> rfl

/-- JSON mode swaps the `.yml` extension of a generated filename for
`.json`; YAML mode keeps it. -/
theorem triggerFileName_yml (a : String) (aj : Bool) :
    triggerFileName (a ++ ".yml") aj = a ++ (if aj then ".json" else ".yml") := by
  cases aj with
  | false => rfl
  | true =>
    apply String.ext
    have hlen : (a ++ ".yml").data.length = a.data.length + 4 := by
      rw [strData_append]; simp
    have hdata : (a ++ ".yml").data = a.data ++ ['.', 'y', 'm', 'l'] := strData_append a _
    show (a ++ ".yml").data.take ((a ++ ".yml").data.length - 4) ++ ['.', 'j', 's', 'o', 'n'] =
      (a ++ ".json").data
    rw [hlen, hdata]
    have h4 : a.data.length + 4 - 4 = a.data.length := by omega
    rw [h4, List.take_left]
    rw [strData_append]

/-- Rune list of the push-kind filename fragment. -/
theorem data_push : ("push-" : String).data = 'p' :: 'u' :: 's' :: 'h' :: '-' :: [] := rfl

/-- Rune list of the pull-request-kind filename fragment. -/
theorem data_pr : ("pr-" : String).data = 'p' :: 'r' :: '-' :: [] := rfl

/-- Rune list of the dispatch-kind filename fragment. -/
theorem data_dispatch :
    ("dispatch-" : String).data = 'd' :: 'i' :: 's' :: 'p' :: 'a' :: 't' :: 'c' :: 'h' :: '-' :: [] := rfl

/-- Rune list of the issue-comment-kind filename fragment. -/
theorem data_ic :
    ("issue-comment-" : String).data =
      'i' :: 's' :: 's' :: 'u' :: 'e' :: '-' :: 'c' :: 'o' :: 'm' :: 'm' :: 'e' :: 'n' :: 't' :: '-' :: [] := rfl

/-- Filenames of two kind blocks never coincide when the kind fragments
stay distinct under arbitrary right extensions. -/
theorem kind_block_ne (pfx ext k1 k2 d1 d2 : String)
    (hne : ∀ r1 r2 : List Char, k1.data ++ r1 = k2.data ++ r2 → False)
    (h : pfx ++ k1 ++ d1 ++ ext = pfx ++ k2 ++ d2 ++ ext) : False := by
  have hd := congrArg String.data h
  simp only [strData_append, List.append_assoc] at hd
  exact hne _ _ (List.append_cancel_left hd)

/-- The push and pull-request fragments differ at their second rune. -/
theorem kindNe_push_pr :
    ∀ r1 r2 : List Char, ("push-" : String).data ++ r1 = ("pr-" : String).data ++ r2 → False := by
  intro r1 r2 h
  rw [data_push, data_pr] at h
  exact heads2_distinct (by decide) _ _ _ _ h

/-- The push and dispatch fragments differ at their first rune. -/
theorem kindNe_push_dispatch :
    ∀ r1 r2 : List Char, ("push-" : String).data ++ r1 = ("dispatch-" : String).data ++ r2 → False := by
  intro r1 r2 h
  rw [data_push, data_dispatch] at h
  exact heads_distinct (by decide) _ _ _ _ h

/-- The push and issue-comment fragments differ at their first rune. -/
theorem kindNe_push_ic :
    ∀ r1 r2 : List Char, ("push-" : String).data ++ r1 = ("issue-comment-" : String).data ++ r2 → False := by
  intro r1 r2 h
  rw [data_push, data_ic] at h
  exact heads_distinct (by decide) _ _ _ _ h

/-- The pull-request and dispatch fragments differ at their first rune. -/
theorem kindNe_pr_dispatch :
    ∀ r1 r2 : List Char, ("pr-" : String).data ++ r1 = ("dispatch-" : String).data ++ r2 → False := by
  intro r1 r2 h
  rw [data_pr, data_dispatch] at h
  exact heads_distinct (by decide) _ _ _ _ h

/-- The pull-request and issue-comment fragments differ at their first rune. -/
theorem kindNe_pr_ic :
    ∀ r1 r2 : List Char, ("pr-" : String).data ++ r1 = ("issue-comment-" : String).data ++ r2 → False := by
  intro r1 r2 h
  rw [data_pr, data_ic] at h
  exact heads_distinct (by decide) _ _ _ _ h

/-- The dispatch and issue-comment fragments differ at their first rune. -/
theorem kindNe_dispatch_ic :
    ∀ r1 r2 : List Char, ("dispatch-" : String).data ++ r1 = ("issue-comment-" : String).data ++ r2 → False := by
  intro r1 r2 h
  rw [data_dispatch, data_ic] at h
  exact heads_distinct (by decide) _ _ _ _ h

/-- Boolean key disjointness coincides with list disjointness. -/
theorem disjointKeys_iff (xs ys : List String) :
    disjointKeys xs ys = true ↔ ∀ k ∈ xs, ¬ k ∈ ys := by
  simp [disjointKeys, List.elem_iff]

/-- Key disjointness is symmetric. -/
theorem disjointKeys_symm (xs ys : List String) (h : disjointKeys xs ys = true) :
    disjointKeys ys xs = true := by
  rw [disjointKeys_iff] at *
  intro k hk hmem
  exact h k hmem hk

/-- Every context key is answered by the GitHub write group with its
dynamic reference expression. -/
theorem envGroupGithub_find : ∀ k ∈ githubContextKeys,
    envGet envGroupGithub ("GITHUB_" ++ strUpper k) = some ("$\x7b\x7b github." ++ k ++ " \x7d\x7d") := by
  decide

/-- The uppercased context-key environment names are pairwise distinct. -/
theorem envGroupGithub_nodup : (keysOf envGroupGithub).Nodup := by decide

/-- The cloud-token names are not written by the GitHub write group. -/
theorem envGroupGithub_no_cloud :
    envGet envGroupGithub ("DAGGER_CLOUD_TOKEN") = none ∧
    envGet envGroupGithub ("_EXPERIMENTAL_DAGGER_CLOUD_TOKEN") = none := by
  decide

/-- The name validator accepts exactly the non-empty strings over the
secret character class. -/
theorem validSecretName_iff (s : String) :
    validSecretName s = true ↔ s.data ≠ [] ∧ ∀ c ∈ s.data, validSecretChar c = true := by
  simp [validSecretName, List.isEmpty_iff]

/-- `checkSecretNames` succeeds on a list of valid names. -/
theorem checkSecretNames_ok (names : List String)
    (h : ∀ s ∈ names, validSecretName s = true) : checkSecretNames names = .ok () := by
  induction names with
  | nil => rfl
  | cons s rest ih =>
    have hs := h s (List.mem_cons_self s rest)
    simp only [checkSecretNames, hs, if_true]
    exact ih (fun t ht => h t (List.mem_cons_of_mem s ht))

/-- `checkSecretNames` fails on the first invalid name, with the message
naming that entry. -/
theorem checkSecretNames_error (pre : List String) (s : String) (post : List String)
    (hpre : ∀ t ∈ pre, validSecretName t = true) (hs : validSecretName s = false) :
    checkSecretNames (pre ++ s :: post) = .error (secretNameError s) := by
  induction pre with
  | nil => simp [checkSecretNames, hs]
  | cons q pre ih =>
    have hq := hpre q (List.mem_cons_self q pre)
    simp only [List.cons_append, checkSecretNames, hq, if_true]
    exact ih (fun t ht => hpre t (List.mem_cons_of_mem q ht))

/-- Lookup in the full execute-step environment, split into its five write
groups (rightmost group wins). -/
theorem envGet_callDagger (p : Pipeline) (k : String) :
    envGet (callDaggerEnv p) k =
      oor (envGet envGroupGithub k) (oor (envGet (envGroupCloud p) k)
        (oor (envGet (envGroupModule p) k) (oor (envGet (envGroupSecrets p) k)
          (envGet (envGroupCommand p) k)))) := by
  simp only [callDaggerEnv]
  rw [envGet_append, envGet_append, envGet_append, envGet_append]

/-- Lookup in a two-write list. -/
theorem envGet_two (a v b w k : String) :
    envGet [(a, v), (b, w)] k =
      oor (if b == k then some w else none) (if a == k then some v else none) := rfl

/-- The module write group never answers for a key other than
`DAGGER_MODULE`. -/
theorem envGet_module_other (p : Pipeline) (k : String)
    (h : (("DAGGER_MODULE" : String) == k) = false) : envGet (envGroupModule p) k = none := by
  by_cases hm : p.Module = "" <;> simp [envGroupModule, hm, envGet, h, oor]

/-- The command write group never answers for a key other than `COMMAND`. -/
theorem envGet_command_other (p : Pipeline) (k : String)
    (h : (("COMMAND" : String) == k) = false) : envGet (envGroupCommand p) k = none := by
  simp [envGroupCommand, envGet, h, oor]

/-- Keys of the module write group. -/
theorem keysOf_module (p : Pipeline) :
    ∀ k ∈ keysOf (envGroupModule p), k = "DAGGER_MODULE" := by
  intro k hk
  by_cases hm : p.Module = "" <;> simp [envGroupModule, keysOf, hm] at hk
  exact hk

/-- Keys of the cloud-token write group. -/
theorem keysOf_cloud (p : Pipeline) :
    ∀ k ∈ keysOf (envGroupCloud p),
      k = "DAGGER_CLOUD_TOKEN" ∨ k = "_EXPERIMENTAL_DAGGER_CLOUD_TOKEN" := by
  intro k hk
  by_cases ht : p.Settings.NoTraces <;>
    by_cases hp : p.Settings.PublicToken = "" <;>
    simp [envGroupCloud, keysOf, ht, hp] at hk <;> tauto

/-- Keys of the command write group. -/
theorem keysOf_command (p : Pipeline) : keysOf (envGroupCommand p) = ["COMMAND"] := rfl

/-- One filename block of one kind is duplicate-free. -/
theorem kindBlock_nodup (pfx E kd : String) (n : Nat) :
    ((List.range n).map (fun i => pfx ++ kd ++ natDec (i+1) ++ E)).Nodup :=
  List.Nodup.map (fun _ _ h => filename_inj pfx kd E h) (List.nodup_range n)

/-- Two filename blocks of distinct kinds are disjoint. -/
theorem kindBlocks_disjoint (pfx E k1 k2 : String) (n1 n2 : Nat)
    (hne : ∀ r1 r2 : List Char, k1.data ++ r1 = k2.data ++ r2 → False) :
    ((List.range n1).map (fun i => pfx ++ k1 ++ natDec (i+1) ++ E)).Disjoint
      ((List.range n2).map (fun j => pfx ++ k2 ++ natDec (j+1) ++ E)) := by
  intro x h1 h2
  rcases List.mem_map.mp h1 with ⟨i, _, rfl⟩
  rcases List.mem_map.mp h2 with ⟨j, _, heq⟩
  exact kind_block_ne pfx E k1 k2 _ _ hne heq.symm

/-- `oor` with an empty first choice. -/
theorem oor_none_left {α : Type} (b : Option α) : oor none b = b := rfl

/-- `oor` with a full first choice. -/
theorem oor_some {α : Type} (v : α) (b : Option α) : oor (some v) b = some v := rfl

/-- String concatenation is associative. -/
theorem strAppend_assoc (a b c : String) : (a ++ b) ++ c = a ++ (b ++ c) :=
  String.ext (by simp only [strData_append, List.append_assoc])

/-- The write groups before the cloud group never answer for a cloud-token
key that is not a declared secret. -/
theorem envGet_pre_cloud_none (p : Pipeline) (k : String)
    (hdm : (("DAGGER_MODULE" : String) == k) = false)
    (hcm : (("COMMAND" : String) == k) = false)
    (hsec : ¬ k ∈ p.Secrets) :
    oor (envGet (envGroupModule p) k)
      (oor (envGet (envGroupSecrets p) k) (envGet (envGroupCommand p) k)) = none := by
  rw [envGet_module_other p k hdm, oor_none_left]
  have hs : envGet (envGroupSecrets p) k = none := by
    simp only [envGroupSecrets]
    exact envGet_secrets_none _ _ _ hsec
  rw [hs, oor_none_left]
  exact envGet_command_other p k hcm

/-- Duplicate-freedom of a four-block concatenation from blockwise
duplicate-freedom and pairwise disjointness. -/
theorem nodup_append4 {α : Type} (a b c d : List α)
    (ha : a.Nodup) (hb : b.Nodup) (hc : c.Nodup) (hd : d.Nodup)
    (hab : a.Disjoint b) (hac : a.Disjoint c) (had : a.Disjoint d)
    (hbc : b.Disjoint c) (hbd : b.Disjoint d) (hcd : c.Disjoint d) :
    (a ++ b ++ c ++ d).Nodup := by
  simp only [List.nodup_append, List.disjoint_append_left]
  tauto

/-- Claim C1 (code evaluation at the failing input): for a pipeline with
an empty module, `checkCommandAndModule` concatenates the tool invocation
and the command with no separating whitespace, producing
`dagger callbuild --help` instead of a whitespace-separated dry-run
command. -/
theorem C1_checkScript_eval :
    checkScript pipeC1 = "dagger callbuild --help" ∧
    checkScript pipeC1 ≠ "dagger call build --help" := by
  constructor
  · rfl
  · decide

/-- Claim C2: `Gha.Config` names the generated files
`<prefix><kind>-<index>.<ext>` with 1-based indices in registration order
per kind (`push`, `pr`, `dispatch`, `issue-comment`), extension `.yml` by
default and `.json` in JSON mode, and the resulting filename list has no
collisions within or across kinds. -/
theorem C2_config_filenames (g : Gha) (pfx : String) :
    ghaConfigFilenames g pfx =
      ((List.range g.PushTriggers.length).map
        (fun i => pfx ++ "push-" ++ natDec (i+1) ++ ghaExt g)) ++
      ((List.range g.PullRequestTriggers.length).map
        (fun i => pfx ++ "pr-" ++ natDec (i+1) ++ ghaExt g)) ++
      ((List.range g.DispatchTriggers.length).map
        (fun i => pfx ++ "dispatch-" ++ natDec (i+1) ++ ghaExt g)) ++
      ((List.range g.IssueCommentTriggers.length).map
        (fun i => pfx ++ "issue-comment-" ++ natDec (i+1) ++ ghaExt g)) ∧
    (ghaConfigFilenames g pfx).Nodup := by
  have hfn : ∀ (kd : String) (i : Nat),
      triggerFileName (pfx ++ kd ++ natDec (i+1) ++ ".yml") g.Settings.AsJson =
        pfx ++ kd ++ natDec (i+1) ++ ghaExt g := by
    intro kd i
    unfold ghaExt
    exact triggerFileName_yml (pfx ++ kd ++ natDec (i+1)) g.Settings.AsJson
  have hnorm : ghaConfigFilenames g pfx =
      ((List.range g.PushTriggers.length).map
        (fun i => pfx ++ "push-" ++ natDec (i+1) ++ ghaExt g)) ++
      ((List.range g.PullRequestTriggers.length).map
        (fun i => pfx ++ "pr-" ++ natDec (i+1) ++ ghaExt g)) ++
      ((List.range g.DispatchTriggers.length).map
        (fun i => pfx ++ "dispatch-" ++ natDec (i+1) ++ ghaExt g)) ++
      ((List.range g.IssueCommentTriggers.length).map
        (fun i => pfx ++ "issue-comment-" ++ natDec (i+1) ++ ghaExt g)) := by
    have e1 := funext (hfn ("push-"))
    have e2 := funext (hfn ("pr-"))
    have e3 := funext (hfn ("dispatch-"))
    have e4 := funext (hfn ("issue-comment-"))
    simp only [ghaConfigFilenames]
    rw [e1, e2, e3, e4]
  refine ⟨hnorm, ?_⟩
  rw [hnorm]
  exact nodup_append4 _ _ _ _
    (kindBlock_nodup _ _ _ _) (kindBlock_nodup _ _ _ _)
    (kindBlock_nodup _ _ _ _) (kindBlock_nodup _ _ _ _)
    (kindBlocks_disjoint _ _ _ _ _ _ kindNe_push_pr)
    (kindBlocks_disjoint _ _ _ _ _ _ kindNe_push_dispatch)
    (kindBlocks_disjoint _ _ _ _ _ _ kindNe_push_ic)
    (kindBlocks_disjoint _ _ _ _ _ _ kindNe_pr_dispatch)
    (kindBlocks_disjoint _ _ _ _ _ _ kindNe_pr_ic)
    (kindBlocks_disjoint _ _ _ _ _ _ kindNe_dispatch_ic)

/-- Claim C3 counterexample: a pipeline whose declared secret is named
`COMMAND` breaks the pairwise disjointness of the five write groups, and
the later secret write indeed overwrites the earlier `COMMAND` entry. -/
theorem C3_counterexample :
    envGroupsPairwiseDisjoint pipeC3 = false ∧
    envGet (callDaggerEnv pipeC3) ("COMMAND") = some ("$\x7b\x7b secrets.COMMAND \x7d\x7d") ∧
    envGet (callDaggerEnv pipeC3) ("COMMAND") ≠ some ("dagger call -q " ++ pipeC3.Command) := by
  decide

/-- Claim C3 (amended): the five environment write groups of the execute
step have pairwise disjoint keys provided no declared secret collides with
the keys of the non-secret groups (`COMMAND`, `DAGGER_MODULE`, the two
cloud-token names, and the `GITHUB_<KEY>` names); the four non-secret
groups are disjoint unconditionally. -/
theorem C3_envGroups_disjoint (p : Pipeline)
    (h : disjointKeys (keysOf (envGroupSecrets p))
      (keysOf (envGroupCommand p) ++ keysOf (envGroupModule p) ++
       keysOf (envGroupCloud p) ++ keysOf envGroupGithub) = true) :
    envGroupsPairwiseDisjoint p = true := by
  rw [disjointKeys_iff] at h
  have hs : ∀ k ∈ keysOf (envGroupSecrets p),
      ¬ k ∈ keysOf (envGroupCommand p) ∧ ¬ k ∈ keysOf (envGroupModule p) ∧
      ¬ k ∈ keysOf (envGroupCloud p) ∧ ¬ k ∈ keysOf envGroupGithub := by
    intro k hk
    have hh := h k hk
    simp only [List.mem_append] at hh
    push_neg at hh
    exact ⟨hh.1.1.1, hh.1.1.2, hh.1.2, hh.2⟩
  have d21 : disjointKeys (keysOf (envGroupSecrets p)) (keysOf (envGroupCommand p)) = true :=
    (disjointKeys_iff _ _).mpr (fun k hk => (hs k hk).1)
  have d23 : disjointKeys (keysOf (envGroupSecrets p)) (keysOf (envGroupModule p)) = true :=
    (disjointKeys_iff _ _).mpr (fun k hk => (hs k hk).2.1)
  have d24 : disjointKeys (keysOf (envGroupSecrets p)) (keysOf (envGroupCloud p)) = true :=
    (disjointKeys_iff _ _).mpr (fun k hk => (hs k hk).2.2.1)
  have d25 : disjointKeys (keysOf (envGroupSecrets p)) (keysOf envGroupGithub) = true :=
    (disjointKeys_iff _ _).mpr (fun k hk => (hs k hk).2.2.2)
  have d12 := disjointKeys_symm _ _ d21
  have d13 : disjointKeys (keysOf (envGroupCommand p)) (keysOf (envGroupModule p)) = true := by
    rw [disjointKeys_iff]
    intro k hk hm
    have hk' : k = "COMMAND" := by rw [keysOf_command] at hk; simpa using hk
    have hm' := keysOf_module p k hm
    rw [hk'] at hm'
    exact absurd hm' (by decide)
  have d14 : disjointKeys (keysOf (envGroupCommand p)) (keysOf (envGroupCloud p)) = true := by
    rw [disjointKeys_iff]
    intro k hk hc
    have hk' : k = "COMMAND" := by rw [keysOf_command] at hk; simpa using hk
    have hc' := keysOf_cloud p k hc
    rw [hk'] at hc'
    rcases hc' with h1 | h1 <;> exact absurd h1 (by decide)
  have d15 : disjointKeys (keysOf (envGroupCommand p)) (keysOf envGroupGithub) = true := by
    rw [disjointKeys_iff]
    intro k hk
    have hk' : k = "COMMAND" := by rw [keysOf_command] at hk; simpa using hk
    rw [hk']
    decide
  have d34 : disjointKeys (keysOf (envGroupModule p)) (keysOf (envGroupCloud p)) = true := by
    rw [disjointKeys_iff]
    intro k hk hc
    have hk' := keysOf_module p k hk
    have hc' := keysOf_cloud p k hc
    rw [hk'] at hc'
    rcases hc' with h1 | h1 <;> exact absurd h1 (by decide)
  have d35 : disjointKeys (keysOf (envGroupModule p)) (keysOf envGroupGithub) = true := by
    rw [disjointKeys_iff]
    intro k hk
    have hk' := keysOf_module p k hk
    rw [hk']
    decide
  have d45 : disjointKeys (keysOf (envGroupCloud p)) (keysOf envGroupGithub) = true := by
    rw [disjointKeys_iff]
    intro k hk
    have hk' := keysOf_cloud p k hk
    rcases hk' with h1 | h1 <;> rw [h1] <;> decide
  simp only [envGroupsPairwiseDisjoint, Bool.and_eq_true]
  exact ⟨⟨⟨⟨⟨⟨⟨⟨⟨d12, d13⟩, d14⟩, d15⟩, d23⟩, d24⟩, d25⟩, d34⟩, d35⟩, d45⟩

/-- Claim C3 witness: a pipeline with benign secret names satisfies the
amended disjointness property. -/
theorem C3_witness : envGroupsPairwiseDisjoint pipeC3ok = true :=
  C3_envGroups_disjoint pipeC3ok (by decide)

/-- Claim C4 counterexample: with traces disabled, a non-empty public
token and the cloud-token name declared as a secret, the claim's branches
fail: the cloud-token variable is present (bound to the secret reference,
not the literal token) and the legacy variable is absent. -/
theorem C4_counterexample :
    pipeC4.Settings.NoTraces = true ∧
    pipeC4.Settings.PublicToken ≠ "" ∧
    envGet (callDaggerEnv pipeC4) ("DAGGER_CLOUD_TOKEN") ≠ some pipeC4.Settings.PublicToken ∧
    envGet (callDaggerEnv pipeC4) ("DAGGER_CLOUD_TOKEN") = some cloudTokenRef ∧
    envGet (callDaggerEnv pipeC4) ("_EXPERIMENTAL_DAGGER_CLOUD_TOKEN") = none := by
  decide

/-- Claim C4 (amended): if traces are enabled and the public token is
empty, both cloud-token variables resolve to the dynamic secret reference;
if traces are enabled and the public token is non-empty, both resolve to
the literal token; if traces are disabled, neither is present provided
neither name is declared among the pipeline's secrets. -/
theorem C4_cloudToken_env (p : Pipeline) :
    (p.Settings.NoTraces = false → p.Settings.PublicToken = "" →
      envGet (callDaggerEnv p) ("DAGGER_CLOUD_TOKEN") = some cloudTokenRef ∧
      envGet (callDaggerEnv p) ("_EXPERIMENTAL_DAGGER_CLOUD_TOKEN") = some cloudTokenRef) ∧
    (p.Settings.NoTraces = false → p.Settings.PublicToken ≠ "" →
      envGet (callDaggerEnv p) ("DAGGER_CLOUD_TOKEN") = some p.Settings.PublicToken ∧
      envGet (callDaggerEnv p) ("_EXPERIMENTAL_DAGGER_CLOUD_TOKEN") = some p.Settings.PublicToken) ∧
    (p.Settings.NoTraces = true →
      ¬ ("DAGGER_CLOUD_TOKEN" : String) ∈ p.Secrets →
      ¬ ("_EXPERIMENTAL_DAGGER_CLOUD_TOKEN" : String) ∈ p.Secrets →
      envGet (callDaggerEnv p) ("DAGGER_CLOUD_TOKEN") = none ∧
      envGet (callDaggerEnv p) ("_EXPERIMENTAL_DAGGER_CLOUD_TOKEN") = none) := by
  have hg1 := envGroupGithub_no_cloud.1
  have hg2 := envGroupGithub_no_cloud.2
  refine ⟨?_, ?_, ?_⟩
  · intro hnt hpt
    have hcl : envGroupCloud p =
        [("DAGGER_CLOUD_TOKEN", cloudTokenRef),
         ("_EXPERIMENTAL_DAGGER_CLOUD_TOKEN", cloudTokenRef)] := by
      simp [envGroupCloud, hnt, hpt]
    constructor
    · rw [envGet_callDagger, hg1, oor_none_left, hcl]
      rfl
    · rw [envGet_callDagger, hg2, oor_none_left, hcl]
      rfl
  · intro hnt hpt
    have hcl : envGroupCloud p =
        [("DAGGER_CLOUD_TOKEN", p.Settings.PublicToken),
         ("_EXPERIMENTAL_DAGGER_CLOUD_TOKEN", p.Settings.PublicToken)] := by
      simp [envGroupCloud, hnt, hpt]
    constructor
    · rw [envGet_callDagger, hg1, oor_none_left, hcl]
      rfl
    · rw [envGet_callDagger, hg2, oor_none_left, hcl]
      rfl
  · intro hnt h1 h2
    have hcl : envGroupCloud p = [] := by simp [envGroupCloud, hnt]
    constructor
    · rw [envGet_callDagger, hg1, oor_none_left, hcl]
      exact envGet_pre_cloud_none p _ rfl rfl h1
    · rw [envGet_callDagger, hg2, oor_none_left, hcl]
      exact envGet_pre_cloud_none p _ rfl rfl h2

/-- Claim C4 witness: with traces enabled and no public token, both
cloud-token variables of a concrete pipeline resolve to the dynamic secret
reference. -/
theorem C4_witness :
    envGet (callDaggerEnv pipeC6) ("DAGGER_CLOUD_TOKEN") = some cloudTokenRef ∧
    envGet (callDaggerEnv pipeC6) ("_EXPERIMENTAL_DAGGER_CLOUD_TOKEN") = some cloudTokenRef :=
  (C4_cloudToken_env pipeC6).1 rfl rfl

/-- Claim C5: for every pipeline, the execute-step environment maps each
`GITHUB_<uppercased key>` name — the names are pairwise distinct — to the
dynamic reference expression of its context key, regardless of command,
module, secrets or settings. -/
theorem C5_github_context_env (p : Pipeline) :
    (keysOf envGroupGithub).Nodup ∧
    ∀ k ∈ githubContextKeys,
      envGet (callDaggerEnv p) ("GITHUB_" ++ strUpper k) =
        some ("$\x7b\x7b github." ++ k ++ " \x7d\x7d") := by
  refine ⟨envGroupGithub_nodup, ?_⟩
  intro k hk
  rw [envGet_callDagger, envGroupGithub_find k hk, oor_some]

/-- Claim C5 witness: the `sha` context key of a concrete pipeline. -/
theorem C5_witness :
    envGet (callDaggerEnv pipeC6) ("GITHUB_" ++ strUpper ("sha")) =
      some ("$\x7b\x7b github.sha \x7d\x7d") :=
  (C5_github_context_env pipeC6).2 ("sha") (by decide)

/-- Claim C6: the checkout step carries a sparse-checkout instruction iff
`sparseCheckout` is non-nil (including non-nil-but-empty), and the path
set is then the user paths followed by the four fixed discovery paths. -/
theorem C6_checkoutStep_sparse (p : Pipeline) :
    ((checkoutStep p).With = none ↔ p.SparseCheckout = none) ∧
    (∀ paths, p.SparseCheckout = some paths →
      (checkoutStep p).With =
        some [("sparse-checkout", String.intercalate "\n" (paths ++ discoveryPaths))]) := by
  cases hs : p.SparseCheckout with
  | none => simp [checkoutStep, hs]
  | some paths => simp [checkoutStep, hs]

/-- Claim C6 witness: a concrete sparse checkout with one user path. -/
theorem C6_witness :
    (checkoutStep pipeC6).With =
      some [("sparse-checkout", String.intercalate "\n" (["src"] ++ discoveryPaths))] :=
  (C6_checkoutStep_sparse pipeC6).2 ["src"] rfl

/-- Claim C7: secret-name validation succeeds when every candidate is
non-empty over `[A-Za-z0-9_]`, and otherwise fails with the error naming
the first offending entry in list order. -/
theorem C7_checkSecretNames_spec (names : List String) :
    ((∀ s ∈ names, s.data ≠ [] ∧ ∀ c ∈ s.data, validSecretChar c = true) →
      checkSecretNames names = .ok ()) ∧
    (∀ pre s post, names = pre ++ s :: post →
      (∀ t ∈ pre, validSecretName t = true) → validSecretName s = false →
      checkSecretNames names = .error (secretNameError s)) := by
  constructor
  · intro h
    exact checkSecretNames_ok names (fun s hs => (validSecretName_iff s).mpr (h s hs))
  · intro pre s post heq hpre hs
    rw [heq]
    exact checkSecretNames_error pre s post hpre hs

/-- Claim C7 witness: validation of a list with one valid and one invalid
name fails naming the invalid one. -/
theorem C7_witness :
    checkSecretNames ["CI_TOKEN", "bad name"] = .error (secretNameError ("bad name")) :=
  (C7_checkSecretNames_spec ["CI_TOKEN", "bad name"]).2 ["CI_TOKEN"] ("bad name") [] rfl
    (by decide) (by decide)

/-- Claim C8: the aggregator's Check visits pipelines in the fixed kind
order (push, pull-request, dispatch, issue-comment; registration order
within each kind), succeeds exactly when every pipeline's check succeeds,
and otherwise returns the first error unchanged. -/
theorem C8_ghaCheck_spec {ε : Type} (check : Pipeline → Except ε Unit) (g : Gha) :
    (ghaCheck check g = .ok g ↔ ∀ p ∈ orderedPipelines g, check p = .ok ()) ∧
    (∀ pre p post e, orderedPipelines g = pre ++ p :: post →
      (∀ q ∈ pre, check q = .ok ()) → check p = .error e →
      ghaCheck check g = .error e) := by
  constructor
  · rw [ghaCheck_eq]
    constructor
    · intro h
      cases hc : checkList check (orderedPipelines g) with
      | error e => rw [hc] at h; exact absurd h (by simp)
      | ok u => cases u; exact (checkList_ok_iff _ _).mp hc
    · intro h
      rw [(checkList_ok_iff _ _).mpr h]
  · intro pre p post e heq hpre hp
    rw [ghaCheck_eq, heq, checkList_first_error check pre p post e hpre hp]

/-- Claim C8 witness: an aggregator whose second pipeline (a pull-request
trigger) fails surfaces exactly that error. -/
theorem C8_witness : ghaCheck checkC8 ghaC8 = .error ("pipeline invalid") :=
  (C8_ghaCheck_spec checkC8 ghaC8).2 [pipeOkC8] pipeBadC8 [] ("pipeline invalid") rfl
    (by
      intro q hq
      have hq2 := List.mem_singleton.mp hq
      subst hq2
      rfl)
    rfl

/-- Claim C9: compilation is deterministic — two runs of `asWorkflow` on
the same Pipeline (and the same bundled scripts) yield the same Workflow,
with the same name, blank trigger section, and exactly one job named
`dagger` carrying the fixed runner, outputs and ordered steps. -/
theorem C9_asWorkflow_deterministic (scripts : String → String) (p : Pipeline) :
    asWorkflow scripts p = asWorkflow scripts p ∧
    (asWorkflow scripts p).Name = p.Command ∧
    (asWorkflow scripts p).On = WorkflowTriggers.mk ∧
    (asWorkflow scripts p).Jobs.map Prod.fst = ["dagger"] ∧
    (asWorkflow scripts p).Jobs.map (fun j => j.2.RunsOn) = [p.Settings.Runner] ∧
    (asWorkflow scripts p).Jobs.map (fun j => j.2.Outputs) =
      [[("stdout", "$\x7b\x7b steps.exec.outputs.stdout \x7d\x7d"),
        ("stderr", "$\x7b\x7b steps.exec.outputs.stderr \x7d\x7d")]] ∧
    (asWorkflow scripts p).Jobs.map (fun j => j.2.Steps) =
      [if p.Settings.StopEngine then
        [checkoutStep p, installDaggerStep scripts p, warmEngineStep scripts p,
         callDaggerStep scripts p, stopEngineStep scripts p]
       else
        [checkoutStep p, installDaggerStep scripts p, warmEngineStep scripts p,
         callDaggerStep scripts p]] := by
  refine ⟨rfl, rfl, rfl, rfl, rfl, rfl, ?_⟩
  by_cases h : p.Settings.StopEngine <;> simp [asWorkflow, h]

/-- Claim C10: the pipeline factory copies the aggregator's settings into
the new Pipeline unchanged except for the runner, which is replaced
exactly when the override is non-empty; the identifying fields are taken
from the arguments. -/
theorem C10_pipeline_settings_frame (m : Gha) (command module runner : String)
    (secrets : List String) (sparseCheckout : Option (List String)) :
    (pipeline m command module runner secrets sparseCheckout).Settings =
      (if runner = "" then m.Settings else { m.Settings with Runner := runner }) ∧
    (pipeline m command module runner secrets sparseCheckout).Command = command ∧
    (pipeline m command module runner secrets sparseCheckout).Module = module ∧
    (pipeline m command module runner secrets sparseCheckout).Secrets = secrets ∧
    (pipeline m command module runner secrets sparseCheckout).SparseCheckout = sparseCheckout := by
  by_cases h : runner = "" <;> simp [pipeline, h]

end GhaSpec
